import Mathlib

/-!
Verification of the Delaware school-closings reconciliation core.

The development shallowly embeds the closure-classification and
entity-matching engine of the repository: the two status classifiers
(the lenient two-tier scheme of the basic server and the standalone
script, and the strict four-category scheme of the extended server),
the word-boundary regex tests they rely on, feed-row normalization,
the district/votech matching strategies, the first-match-wins lookup
maps, the TTL freshness cache, and the catalog fetchers.

Strings are modelled as `List Char`; JavaScript regular expressions
are translated into executable Boolean matchers with JS `\b` word
boundaries (word characters are `[A-Za-z0-9_]`).
-/

/-- JS word character class `\w`, i.e. `[A-Za-z0-9_]` (inputs are ASCII). -/
def isWordChar (c : Char) : Bool := c.isAlphanum || c == '_'

/-- JS whitespace class `\s` restricted to ASCII, as used by `\s+` and `trim`. -/
def isSpaceJs (c : Char) : Bool :=
  c == ' ' || c == '\t' || c == '\n' || c == '\r' || c == '\x0b' || c == '\x0c'

/-- A `\b` word boundary holds before a word character when the previous
character (if any) is not a word character. -/
def boundaryOk : Option Char → Bool
  | none => true
  | some c => !isWordChar c

/-- A `\b` word boundary holds after a word character when the next
character (if any) is not a word character. -/
def endBoundary : List Char → Bool
  | [] => true
  | c :: _ => !isWordChar c

/-- The last character of the list, if any, is not a word character
(used to state that a `\b` boundary holds right after a prefix). -/
def lastNotWordB : List Char → Bool
  | [] => true
  | [c] => !isWordChar c
  | _ :: c :: rest => lastNotWordB (c :: rest)

/-- `startsWithL needle hay` : `hay` starts with `needle`. -/
def startsWithL : List Char → List Char → Bool
  | [], _ => true
  | _ :: _, [] => false
  | a :: as, b :: bs => (a == b) && startsWithL as bs

/-- JS `String.prototype.includes`: `needle` occurs as a contiguous
substring of `hay`. -/
def includesL : List Char → List Char → Bool
  | [], needle => needle.isEmpty
  | c :: rest, needle => startsWithL needle (c :: rest) || includesL rest needle

/-- JS `String.prototype.trim` (ASCII whitespace suffices for the feeds). -/
def trimL (t : List Char) : List Char :=
  ((t.dropWhile isSpaceJs).reverse.dropWhile isSpaceJs).reverse

/-- Match of `delay(ed|s)?\b` at the head of `t` (the leading `\b` is
checked by the scanner). Translates `/\bdelay(ed|s)?\b/`. -/
def delayAt (t : List Char) : Bool :=
  startsWithL (("delay").data) t &&
    ((startsWithL (("ed").data) (t.drop 5) && endBoundary (t.drop 7)) ||
     ((startsWithL (("s").data) (t.drop 5) && endBoundary (t.drop 6)) ||
      endBoundary (t.drop 5)))

/-- Match of `late\s+(start|open)` at the head of `t`.
Translates `/\blate\s+(start|open)/`. -/
def lateAt (t : List Char) : Bool :=
  startsWithL (("late").data) t &&
    (match t.drop 4 with
     | [] => false
     | c :: rest =>
       isSpaceJs c &&
         (startsWithL (("start").data) (rest.dropWhile isSpaceJs) ||
          startsWithL (("open").data) (rest.dropWhile isSpaceJs)))

/-- Match of `early\b` at the head of `t`. Translates `/\bearly\b/`. -/
def earlyAt (t : List Char) : Bool :=
  startsWithL (("early").data) t && endBoundary (t.drop 5)

/-- Match of `dismiss` at the head of `t`. Translates `/\bdismiss/`
(no trailing boundary in the source regex). -/
def dismissAt (t : List Char) : Bool :=
  startsWithL (("dismiss").data) t

/-- Match of `early\s+dismissal\b` at the head of `t`.
Translates `/\bearly\s+dismissal\b/`. -/
def earlyDismissalAt (t : List Char) : Bool :=
  startsWithL (("early").data) t &&
    (match t.drop 5 with
     | [] => false
     | c :: rest =>
       isSpaceJs c &&
         (startsWithL (("dismissal").data) (rest.dropWhile isSpaceJs) &&
          endBoundary ((rest.dropWhile isSpaceJs).drop 9)))

/-- Match of `clos(ed|ing|ure|ures)\b` at the head of `t`.
Translates `/\bclos(ed|ing|ure|ures)\b/`. -/
def closAt (t : List Char) : Bool :=
  startsWithL (("clos").data) t &&
    ((startsWithL (("ed").data) (t.drop 4) && endBoundary (t.drop 6)) ||
     ((startsWithL (("ing").data) (t.drop 4) && endBoundary (t.drop 7)) ||
      ((startsWithL (("ure").data) (t.drop 4) && endBoundary (t.drop 7)) ||
       (startsWithL (("ures").data) (t.drop 4) && endBoundary (t.drop 8)))))

/-- Scan every position of the text; a pattern that begins with `\b`
matches if at some position the preceding character is not a word
character and the head pattern `p` matches there. `prev` is the
character just before the current position. -/
def scanB (p : List Char → Bool) : Option Char → List Char → Bool
  | _, [] => false
  | prev, c :: cs => (boundaryOk prev && p (c :: cs)) || scanB p (some c) cs

/-- `RegExp.prototype.test` for the `\b`-anchored patterns above. -/
def testRe (p : List Char → Bool) (t : List Char) : Bool := scanB p none t

/-- Status categories produced by the classifiers; `info` only occurs in
the strict four-category scheme of the extended server. -/
inductive StatusCategory
  | closed
  | delay
  | earlyDismissal
  | info
deriving DecidableEq

/-- `detectStatusType` of the basic server (part_000 lines 177-182), the
same logic as the inline classifier of `fetchClosings.js` lines 41-47:
delay keywords or a late start give `delay`, early/dismiss keywords give
`early dismissal`, and everything else defaults to `closed`. -/
def detectStatusTypeLenient (text : List Char) : StatusCategory :=
  let lower := text.map Char.toLower
  if testRe delayAt lower || testRe lateAt lower then StatusCategory.delay
  else if testRe earlyAt lower || testRe dismissAt lower then StatusCategory.earlyDismissal
  else StatusCategory.closed

/-- `detectStatusType` of the extended server (part_000 lines 321-327):
delay keywords give `delay`, an exact `early dismissal` phrase gives
`early dismissal`, closure keywords give `closed`, and texts with no
actionable keyword fall back to `info`. -/
def detectStatusTypeStrict (text : List Char) : StatusCategory :=
  let lower := text.map Char.toLower
  if testRe delayAt lower then StatusCategory.delay
  else if testRe earlyDismissalAt lower then StatusCategory.earlyDismissal
  else if testRe closAt lower then StatusCategory.closed
  else StatusCategory.info

/-- A raw feed row as extracted from the closings XML feed: the four
`cell` texts of a `row` element, in order. -/
structure RawRow where
  entityLabel : List Char
  detailText : List Char
  titleText : List Char
  dateText : List Char
deriving DecidableEq

/-- A normalized closure record, as pushed onto `closings` by
`fetchClosings` (part_000 lines 375-390). -/
structure ClosureRecord where
  schoolName : List Char
  status : List Char
  statusType : StatusCategory
  date : List Char
deriving DecidableEq

/-- Normalization of one feed row by the extended server's
`fetchClosings` loop (part_000 lines 375-390): each cell text is
trimmed, the status text defaults to `"Closed"` when the detail text is
empty, and the status type is classified from
`details ++ " " ++ district ++ " " ++ title`. -/
def mkRecord (r : RawRow) : ClosureRecord :=
  let district := trimL r.entityLabel
  let details := trimL r.detailText
  let title := trimL r.titleText
  let date := trimL r.dateText
  { schoolName := district
    status := if details.isEmpty then ("Closed").data else details
    statusType := detectStatusTypeStrict (details ++ (" ").data ++ district ++ (" ").data ++ title)
    date := date }

/-- The `$('row').each` loop of the extended server's `fetchClosings`:
rows whose trimmed entity label is empty are skipped (`if (!district)
return;`), every other row pushes exactly one record. -/
def parseRows : List RawRow → List ClosureRecord
  | [] => []
  | r :: rest =>
    if (trimL r.entityLabel).isEmpty then parseRows rest
    else mkRecord r :: parseRows rest

/-- Match of the pattern `\s*school\s*district\s*` at the start of `t`;
returns the remainder after the matched portion. -/
def matchSDAt (t : List Char) : Option (List Char) :=
  let t1 := t.dropWhile isSpaceJs
  if startsWithL (("school").data) t1 then
    let t2 := (t1.drop 6).dropWhile isSpaceJs
    if startsWithL (("district").data) t2 then some ((t2.drop 8).dropWhile isSpaceJs)
    else none
  else none

/-- JS `replace(/\s*school\s*district\s*/i, '')` on an already lowercased
string: remove the leftmost occurrence of the pattern, if any. -/
def stripSD : List Char → List Char
  | [] => []
  | c :: rest =>
    match matchSDAt (c :: rest) with
    | some rem => rem
    | none => c :: stripSD rest

/-- The `core` string of a catalog entity name: lowercased, with the
`school district` phrase stripped and the result trimmed. -/
def coreOf (name : List Char) : List Char := trimL (stripSD (name.map Char.toLower))

/-- The search text of a closing:
`(closing.schoolName + ' ' + closing.status).toLowerCase()`. -/
def closingSearchText (closing : ClosureRecord) : List Char :=
  (closing.schoolName ++ (" ").data ++ closing.status).map Char.toLower

/-- Loop body of the extended server's `matchDistrict` (part_000 lines
403-410): first catalog name whose core is longer than 2 characters and
occurs in the search text. -/
def matchDistrictGo (lower : List Char) : List (List Char) → Option (List Char)
  | [] => none
  | name :: rest =>
    if decide (2 < (coreOf name).length) && includesL lower (coreOf name) then some name
    else matchDistrictGo lower rest

/-- `matchDistrict` of the extended server (part_000 lines 403-410). -/
def matchDistrict (districtNames : List (List Char)) (closing : ClosureRecord) :
    Option (List Char) :=
  matchDistrictGo (closingSearchText closing) districtNames

/-- Loop body of the script's `matchClosingToDistrict` (fetchClosings.js
lines 66-78); same logic with the conjuncts in the source's order. -/
def matchClosingToDistrictGo (lower : List Char) : List (List Char) → Option (List Char)
  | [] => none
  | name :: rest =>
    if includesL lower (coreOf name) && decide (2 < (coreOf name).length) then some name
    else matchClosingToDistrictGo lower rest

/-- `matchClosingToDistrict` of the standalone script (fetchClosings.js
lines 66-78). -/
def matchClosingToDistrict (closing : ClosureRecord) (districtNames : List (List Char)) :
    Option (List Char) :=
  matchClosingToDistrictGo (closingSearchText closing) districtNames

/-- One entry of the static votech table. -/
structure VotechEntry where
  key : List Char
  displayName : List Char
  matchTerms : List (List Char)
deriving DecidableEq

/-- `VOTECH_MAP` of the extended server (part_000 lines 298-311), in
object-literal insertion order. -/
def VOTECH_MAP : List VotechEntry :=
  [⟨("NEW CASTLE").data,
    ("New Castle County Vocational-Technical School District").data,
    [("new castle county vo").data, ("ncc votech").data, ("ncco votech").data,
     ("new castle vocational").data]⟩,
   ⟨("POLYTECH").data, ("Polytech School District").data, [("polytech").data]⟩,
   ⟨("SUSSEX TECH").data, ("Sussex Technical School District").data, [("sussex tech").data]⟩]

/-- Loop body of `matchVotech` (part_000 lines 413-424): for each entry,
in order, try the stripped display name (if longer than 2 characters),
then every alias term, then the lowercased key itself. -/
def matchVotechGo (lower : List Char) : List VotechEntry → Option (List Char)
  | [] => none
  | en :: rest =>
    if decide (2 < (coreOf en.displayName).length) && includesL lower (coreOf en.displayName) then
      some en.key
    else if en.matchTerms.any (includesL lower) then some en.key
    else if includesL lower (en.key.map Char.toLower) then some en.key
    else matchVotechGo lower rest

/-- `matchVotech` of the extended server (part_000 lines 413-424). -/
def matchVotech (closing : ClosureRecord) : Option (List Char) :=
  matchVotechGo (closingSearchText closing) VOTECH_MAP

/-- A value stored in one of the lookup maps: the closure record spread
together with the matched entity identifier
(`{ ...c, matchedDistrict: dm }` / `{ ...c, matchedVotech: vm }`). -/
structure MatchedClosure where
  record : ClosureRecord
  matchedKey : List Char
deriving DecidableEq

/-- JS object property assignment `m[k] = v`, on a map modelled as a
function to `Option`. -/
def updateMap (m : List Char → Option MatchedClosure) (k : List Char) (v : MatchedClosure) :
    List Char → Option MatchedClosure :=
  fun q => if q = k then some v else m q

/-- The `byDistrict` and `byVotech` lookup objects of the extended
server. -/
structure MatchMaps where
  byDistrict : List Char → Option MatchedClosure
  byVotech : List Char → Option MatchedClosure

/-- One iteration of the extended server's mapping loop (part_000 lines
431-436): `if (dm && !byDistrict[dm]) byDistrict[dm] = {...c,
matchedDistrict: dm};` and likewise for `byVotech`. -/
def stepMaps (mD mV : ClosureRecord → Option (List Char)) (st : MatchMaps) (c : ClosureRecord) :
    MatchMaps :=
  let st1 :=
    match mD c with
    | some d =>
      if (st.byDistrict d).isSome then st
      else { st with byDistrict := updateMap st.byDistrict d ⟨c, d⟩ }
    | none => st
  match mV c with
  | some v =>
    if (st1.byVotech v).isSome then st1
    else { st1 with byVotech := updateMap st1.byVotech v ⟨c, v⟩ }
  | none => st1

/-- The extended server's `for (const c of closings)` mapping loop. -/
def buildMapsAux (mD mV : ClosureRecord → Option (List Char)) :
    MatchMaps → List ClosureRecord → MatchMaps
  | st, [] => st
  | st, c :: rest => buildMapsAux mD mV (stepMaps mD mV st c) rest

/-- Lookup maps built from a closure list, starting from empty objects
(part_000 lines 426-436). -/
def buildMaps (mD mV : ClosureRecord → Option (List Char)) (closings : List ClosureRecord) :
    MatchMaps :=
  buildMapsAux mD mV ⟨fun _ => none, fun _ => none⟩ closings

/-- The script's `closingsByDistrict` loop (fetchClosings.js lines
99-104): an unguarded `closingsByDistrict[c.matchedDistrict] = c`. -/
def scriptByDistrictAux (districtNames : List (List Char)) :
    (List Char → Option MatchedClosure) → List ClosureRecord →
    (List Char → Option MatchedClosure)
  | m, [] => m
  | m, c :: rest =>
    scriptByDistrictAux districtNames
      (match matchClosingToDistrict c districtNames with
       | some d => updateMap m d ⟨c, d⟩
       | none => m) rest

/-- The script's district lookup built over the whole closing list. -/
def closingsByDistrictScript (districtNames : List (List Char))
    (closings : List ClosureRecord) : List Char → Option MatchedClosure :=
  scriptByDistrictAux districtNames (fun _ => none) closings

/-- `CLOSINGS_TTL = 3 * 60 * 1000` milliseconds (part_000 line 319). -/
def CLOSINGS_TTL : Nat := 3 * 60 * 1000

/-- The mutable closings cache of the server: `closingsCache` (an
optional stored result) and `closingsLastFetched` (milliseconds). -/
structure CacheState (R : Type) where
  cache : Option R
  lastFetched : Nat
deriving DecidableEq

/-- Outcome of one `fetchClosings()` call: the value returned (or the
error thrown), the cache state afterwards, and whether the refresh
(upstream fetch plus reconciliation) was invoked. -/
structure StepResult (E R : Type) where
  result : Except E R
  state : CacheState R
  invoked : Bool

/-- The refresh path of `fetchClosings` (part_000 lines 371-463): run
the fetch-and-reconcile function; on success store the result and set
`closingsLastFetched = now`; on a thrown error the assignments are never
reached, so the cache state is left exactly as it was. -/
def runRefresh {E R : Type} (refresh : Nat → Except E R) (now : Nat) (st : CacheState R) :
    StepResult E R :=
  match refresh now with
  | Except.ok r => ⟨Except.ok r, ⟨some r, now⟩, true⟩
  | Except.error e => ⟨Except.error e, st, true⟩

/-- `fetchClosings` cache guard (part_000 lines 365-369): `if
(closingsCache && now - closingsLastFetched < CLOSINGS_TTL) return
closingsCache;`, otherwise refresh. -/
def getOrRefresh {E R : Type} (refresh : Nat → Except E R) (now : Nat) (st : CacheState R) :
    StepResult E R :=
  match st.cache with
  | some r =>
    if now - st.lastFetched < CLOSINGS_TTL then ⟨Except.ok r, st, false⟩
    else runRefresh refresh now st
  | none => runRefresh refresh now st

/-- A reconciliation result as stored in the cache, reduced to its
`fetchedAt` stamp and an abstract payload. -/
structure TimedResult (P : Type) where
  fetchedAt : Nat
  payload : P
deriving DecidableEq

/-- A refresh function that always succeeds, for exercising the cache's
happy path. -/
def okRefresh {P : Type} (refresh : Nat → P) : Nat → Except Unit P :=
  fun t => Except.ok (refresh t)

/-- A GeoJSON feature collection, reduced to the list of feature names
the matching code reads. -/
structure FeatureCollection where
  features : List (List Char)
deriving DecidableEq

/-- `fetchDistricts` of the servers (part_000 lines 329-334): return the
cache if populated; otherwise the transport result is stored and
returned on success, while an error propagates and leaves the cache
unpopulated. -/
def fetchDistrictsServer (cache : Option FeatureCollection)
    (resp : Except (List Char) FeatureCollection) :
    Except (List Char) FeatureCollection × Option FeatureCollection :=
  match cache with
  | some d => (Except.ok d, some d)
  | none =>
    match resp with
    | Except.ok d => (Except.ok d, some d)
    | Except.error e => (Except.error e, none)

/-- `fetchCharterSchools` of the extended server (part_000 lines
358-363); same shape as the district fetcher. -/
def fetchCharterSchoolsServer (cache : Option FeatureCollection)
    (resp : Except (List Char) FeatureCollection) :
    Except (List Char) FeatureCollection × Option FeatureCollection :=
  match cache with
  | some d => (Except.ok d, some d)
  | none =>
    match resp with
    | Except.ok d => (Except.ok d, some d)
    | Except.error e => (Except.error e, none)

/-- The votech enrichment of `fetchVotechDistricts` (part_000 lines
336-356): each feature's `VOTECH` key is paired with a friendly `NAME`,
the mapped display name when the key is in `VOTECH_MAP`, else the key. -/
def enrichVotech (keys : List (List Char)) : List (List Char × List Char) :=
  keys.map fun k =>
    (k,
     match VOTECH_MAP.find? (fun en => decide (en.key = k)) with
     | some en => en.displayName
     | none => k)

/-- `fetchVotechDistricts` of the extended server (part_000 lines
336-356): cached pass-through, enrichment on success, propagation of a
transport error with the cache left unpopulated. -/
def fetchVotechDistrictsServer (cache : Option (List (List Char × List Char)))
    (resp : Except (List Char) (List (List Char))) :
    Except (List Char) (List (List Char × List Char)) × Option (List (List Char × List Char)) :=
  match cache with
  | some d => (Except.ok d, some d)
  | none =>
    match resp with
    | Except.ok keys => (Except.ok (enrichVotech keys), some (enrichVotech keys))
    | Except.error e => (Except.error e, none)

/-- `fetchDistricts` of the standalone script (fetchClosings.js lines
14-23): the `catch` block swallows the transport error and returns an
empty `FeatureCollection`. -/
def fetchDistrictsScript (resp : Except (List Char) FeatureCollection) : FeatureCollection :=
  match resp with
  | Except.ok d => d
  | Except.error _ => FeatureCollection.mk []

/-- The three word-bounded delay tokens of `/\bdelay(ed|s)?\b/`. -/
def delayWords : List (List Char) := [("delay").data, ("delayed").data, ("delays").data]

/-- Modelled from the spec: the text contains an occurrence of `delay`,
`delayed` or `delays` with a `\b` word boundary on each side — the
preceding character (if any) and the following character (if any) are
not word characters. Used to state what "a word-bounded occurrence"
means independently of the executable matcher. -/
def ContainsWordBoundedDelay (t : List Char) : Prop :=
  ∃ pre w suf, w ∈ delayWords ∧ t = pre ++ w ++ suf ∧
    lastNotWordB pre = true ∧ endBoundary suf = true

theorem option_or_right_none {α : Type} (o : Option α) : Option.or o none = o := by
  cases o <;> rfl

theorem lastNotWordB_singleton (a : Char) (h : lastNotWordB [a] = true) :
    boundaryOk (some a) = true := h

theorem lastNotWordB_cons (a : Char) (b : Char) (l : List Char)
    (h : lastNotWordB (a :: b :: l) = true) : lastNotWordB (b :: l) = true := h

theorem scanB_complete (p : List Char → Bool) (pre : List Char) :
    ∀ (prev : Option Char) (rest : List Char), rest ≠ [] →
    (pre = [] → boundaryOk prev = true) →
    lastNotWordB pre = true →
    p rest = true → scanB p prev (pre ++ rest) = true := by
  induction pre with
  | nil =>
    intro prev rest hne h0 _ hp
    cases rest with
    | nil => exact absurd rfl hne
    | cons c cs => simp [scanB, h0 rfl, hp]
  | cons a pre ih =>
    intro prev rest hne _ hl hp
    have htail : scanB p (some a) (pre ++ rest) = true := by
      cases pre with
      | nil =>
        exact ih (some a) rest hne (fun _ => lastNotWordB_singleton a hl) rfl hp
      | cons b l =>
        exact ih (some a) rest hne (by intro h; cases h)
          (lastNotWordB_cons a b l hl) hp
    simp [scanB, htail]

theorem delayAt_append (w suf : List Char) (hw : w ∈ delayWords)
    (hs : endBoundary suf = true) : delayAt (w ++ suf) = true := by
  have h3 : w = ("delay").data ∨ w = ("delayed").data ∨ w = ("delays").data := by
    simpa [delayWords] using hw
  rcases h3 with h | h | h <;> subst h
  · have e : delayAt ((("delay").data) ++ suf) =
        ((startsWithL (("ed").data) suf && endBoundary (suf.drop 2)) ||
         ((startsWithL (("s").data) suf && endBoundary (suf.drop 1)) || endBoundary suf)) := rfl
    rw [e, hs]
    simp
  · have e : delayAt ((("delayed").data) ++ suf) = (endBoundary suf || (false || false)) := rfl
    rw [e, hs]
    rfl
  · have e : delayAt ((("delays").data) ++ suf) = (false || (endBoundary suf || false)) := rfl
    rw [e, hs]
    rfl

theorem delayWords_ne_nil (w : List Char) (hw : w ∈ delayWords) : w ≠ [] := by
  have h3 : w = ("delay").data ∨ w = ("delayed").data ∨ w = ("delays").data := by
    simpa [delayWords] using hw
  rcases h3 with h | h | h <;> subst h <;> decide

theorem testRe_delay_complete (t : List Char) (h : ContainsWordBoundedDelay t) :
    testRe delayAt t = true := by
  obtain ⟨pre, w, suf, hw, ht, hpre, hsuf⟩ := h
  subst ht
  rw [testRe, List.append_assoc]
  refine scanB_complete delayAt pre none (w ++ suf) ?_ (fun _ => rfl) hpre
    (delayAt_append w suf hw hsuf)
  have hne := delayWords_ne_nil w hw
  cases w with
  | nil => exact absurd rfl hne
  | cons c cs => simp

theorem stepMaps_byDistrict (mD mV : ClosureRecord → Option (List Char))
    (st : MatchMaps) (c : ClosureRecord) :
    (stepMaps mD mV st c).byDistrict =
      (match mD c with
       | some d =>
         if (st.byDistrict d).isSome then st.byDistrict
         else updateMap st.byDistrict d ⟨c, d⟩
       | none => st.byDistrict) := by
  unfold stepMaps
  cases hmd : mD c <;> cases hmv : mV c <;> simp only [] <;> (try split) <;> (try split) <;> rfl

theorem buildMapsAux_byDistrict (mD mV : ClosureRecord → Option (List Char)) (d : List Char) :
    ∀ (closings : List ClosureRecord) (st : MatchMaps),
    (buildMapsAux mD mV st closings).byDistrict d =
      Option.or (st.byDistrict d)
        ((closings.find? fun c => decide (mD c = some d)).map fun c => MatchedClosure.mk c d) := by
  intro closings
  induction closings with
  | nil =>
    intro st
    simp [buildMapsAux, List.find?, option_or_right_none]
  | cons c rest ih =>
    intro st
    rw [buildMapsAux, ih (stepMaps mD mV st c)]
    rw [congrFun (stepMaps_byDistrict mD mV st c) d]
    cases hmd : mD c with
    | none =>
      have hp : (decide (mD c = some d)) = false := by simp [hmd]
      simp [List.find?_cons, hp]
    | some d1 =>
      by_cases hd : d1 = d
      · subst hd
        have hp : (decide (mD c = some d1)) = true := by simp [hmd]
        cases hs : st.byDistrict d1 with
        | none =>
          simp only [hs, Option.isSome_none, Bool.false_eq_true, if_false,
            List.find?_cons, hp, Option.map_some, updateMap, if_pos rfl]
          rfl
        | some v =>
          simp only [hs, Option.isSome_some, if_true, List.find?_cons, hp, Option.map_some]
          rfl
      · have hp : (decide (mD c = some d)) = false := by simp [hmd, hd]
        have harm : (if (st.byDistrict d1).isSome then st.byDistrict
            else updateMap st.byDistrict d1 ⟨c, d1⟩) d = st.byDistrict d := by
          split
          · rfl
          · unfold updateMap
            rw [if_neg (fun h => hd h.symm)]
        dsimp only
        rw [harm]
        simp [List.find?_cons, hp]

/-- C1 (corrected): the claim's negative example is false on the code.
JS `\b` treats `-` as a non-word character, so `"Non-delay day"`
contains a word-bounded `delay` and the lenient classifier classifies it
as `delay`, contradicting the claim that it must not. -/
theorem nonDelayDay_classifies_delay :
    detectStatusTypeLenient (("Non-delay day").data) = StatusCategory.delay := by decide

/-- C1 (amended): every text whose lowercasing contains a word-bounded
occurrence of `delay`, `delayed` or `delays` is classified `delay` by
the lenient classifier, and the matching is word-boundary based, not
naive substring: an occurrence embedded in a longer word such as
`"undelayed"` does not classify as `delay` (whereas `"Non-delay day"`
does, since `-` is not a word character). -/
theorem delay_word_bounded_amended :
    (∀ t : List Char, ContainsWordBoundedDelay (t.map Char.toLower) →
      detectStatusTypeLenient t = StatusCategory.delay) ∧
    detectStatusTypeLenient (("undelayed").data) ≠ StatusCategory.delay := by
  constructor
  · intro t h
    have hd := testRe_delay_complete (t.map Char.toLower) h
    simp [detectStatusTypeLenient, hd]
  · decide

/-- C1 witness: the amended theorem applied to a concrete text. -/
theorem delay_word_bounded_amended_witness :
    detectStatusTypeLenient (("School delayed two hours").data) = StatusCategory.delay ∧
    detectStatusTypeLenient (("undelayed").data) ≠ StatusCategory.delay :=
  ⟨delay_word_bounded_amended.1 (("School delayed two hours").data)
    ⟨("school ").data, ("delayed").data, (" two hours").data, by decide, by decide,
     by decide, by decide⟩,
   delay_word_bounded_amended.2⟩

/-- C2 (amended): in the extended server the district map insertion is
guarded (`if (dm && !byDistrict[dm])`), so for every matcher pair, feed
and district identifier, `byDistrict[d]` holds exactly the earliest
record of the feed matching `d` (spread with the matched key), and is
absent when no record matches: first match wins. -/
theorem byDistrict_first_match_amended (mD mV : ClosureRecord → Option (List Char))
    (closings : List ClosureRecord) (d : List Char) :
    (buildMaps mD mV closings).byDistrict d =
      (closings.find? fun c => decide (mD c = some d)).map fun c => MatchedClosure.mk c d := by
  unfold buildMaps
  rw [buildMapsAux_byDistrict mD mV d closings]
  rfl

/-- C2 district names and records for the script counterexample. -/
def apqName : List Char := ("Appoquinimink School District").data

/-- C2: the earlier of two records matching the Appoquinimink district. -/
def recEarly : ClosureRecord :=
  ⟨("Appoquinimink").data, ("Closed for snow").data, StatusCategory.closed,
   ("2024-01-15").data⟩

/-- C2: the later of two records matching the Appoquinimink district. -/
def recLate : ClosureRecord :=
  ⟨("Appoquinimink School District").data, ("Two hour delay").data, StatusCategory.delay,
   ("2024-01-15").data⟩

/-- C2 (counterexample): the script's `closingsByDistrict` loop
(fetchClosings.js lines 99-104) assigns without a guard, so with two
records matching the same district the map retains the LAST one, not
the earliest as the claim states. -/
theorem script_byDistrict_retains_last :
    closingsByDistrictScript [apqName] [recEarly, recLate] apqName =
      some ⟨recLate, apqName⟩ ∧ recEarly ≠ recLate := by
  constructor
  · decide
  · decide

/-- C5 (counterexample): the strict four-category classifier of the
extended server has no late-start rule, so `"late start"` is classified
`info`, not `delay` — the claim's "regardless of which classification
scheme is in use" fails. -/
theorem strict_late_start_not_delay :
    detectStatusTypeStrict (("late start").data) ≠ StatusCategory.delay := by decide

/-- C5 (amended): every text matching `\blate\s+(start|open)` is
classified `delay` by the LENIENT classifier (rule 1); the strict
four-category classifier has no late-start rule and classifies
`"late start"` as `info`. -/
theorem late_start_delay_amended :
    (∀ t : List Char, testRe lateAt (t.map Char.toLower) = true →
      detectStatusTypeLenient t = StatusCategory.delay) ∧
    detectStatusTypeStrict (("late start").data) = StatusCategory.info := by
  constructor
  · intro t h
    simp [detectStatusTypeLenient, h]
  · decide

/-- C5 witness: the amended theorem applied to a concrete text. -/
theorem late_start_delay_amended_witness :
    detectStatusTypeLenient (("Late start for all schools").data) = StatusCategory.delay :=
  late_start_delay_amended.1 (("Late start for all schools").data) (by decide)

/-- C3 (confirmed): for a refresh function that stamps its result with
the current time, a first call on an empty cache invokes the refresh and
stores its result; a second call within the TTL returns the identical
stored result (hence the same `fetchedAt`) without invoking the refresh
and without touching the state; a call at or after TTL expiry invokes
the refresh again and returns a new result stamped with the later time,
which differs from the first stamp. -/
theorem freshness_cache_ttl {P : Type} (refresh : Nat → TimedResult P)
    (hf : ∀ t, (refresh t).fetchedAt = t) (t0 t1 t2 : Nat)
    (hin : t1 - t0 < CLOSINGS_TTL) (hout : CLOSINGS_TTL ≤ t2 - t0) :
    (getOrRefresh (okRefresh refresh) t0 ⟨none, 0⟩).invoked = true ∧
    (getOrRefresh (okRefresh refresh) t0 ⟨none, 0⟩).result = Except.ok (refresh t0) ∧
    (getOrRefresh (okRefresh refresh) t1
        (getOrRefresh (okRefresh refresh) t0 ⟨none, 0⟩).state).invoked = false ∧
    (getOrRefresh (okRefresh refresh) t1
        (getOrRefresh (okRefresh refresh) t0 ⟨none, 0⟩).state).result =
      (getOrRefresh (okRefresh refresh) t0 ⟨none, 0⟩).result ∧
    (getOrRefresh (okRefresh refresh) t1
        (getOrRefresh (okRefresh refresh) t0 ⟨none, 0⟩).state).state =
      (getOrRefresh (okRefresh refresh) t0 ⟨none, 0⟩).state ∧
    (getOrRefresh (okRefresh refresh) t2
        (getOrRefresh (okRefresh refresh) t0 ⟨none, 0⟩).state).invoked = true ∧
    (getOrRefresh (okRefresh refresh) t2
        (getOrRefresh (okRefresh refresh) t0 ⟨none, 0⟩).state).result =
      Except.ok (refresh t2) ∧
    (refresh t0).fetchedAt = t0 ∧ (refresh t2).fetchedAt = t2 ∧ t0 ≠ t2 := by
  have e0 : getOrRefresh (okRefresh refresh) t0 ⟨none, 0⟩ =
      ⟨Except.ok (refresh t0), ⟨some (refresh t0), t0⟩, true⟩ := rfl
  have e1 : getOrRefresh (okRefresh refresh) t1 ⟨some (refresh t0), t0⟩ =
      ⟨Except.ok (refresh t0), ⟨some (refresh t0), t0⟩, false⟩ := by
    unfold getOrRefresh
    dsimp only
    rw [if_pos hin]
  have e2 : getOrRefresh (okRefresh refresh) t2 ⟨some (refresh t0), t0⟩ =
      ⟨Except.ok (refresh t2), ⟨some (refresh t2), t2⟩, true⟩ := by
    unfold getOrRefresh
    dsimp only
    rw [if_neg (Nat.not_lt.mpr hout)]
    rfl
  have httl : CLOSINGS_TTL = 180000 := rfl
  refine ⟨?_, ?_, ?_, ?_, ?_, ?_, ?_, hf t0, hf t2, ?_⟩
  · rw [e0]
  · rw [e0]
  · rw [e0]
    dsimp only
    rw [e1]
  · rw [e0]
    dsimp only
    rw [e1]
  · rw [e0]
    dsimp only
    rw [e1]
  · rw [e0]
    dsimp only
    rw [e2]
  · rw [e0]
    dsimp only
    rw [e2]
  · intro h
    rw [h] at hout
    rw [httl] at hout
    omega

/-- C3 witness: the cache theorem at a concrete refresh function and
concrete instants 5, 100 and 200000 (TTL is 180000 ms). -/
theorem freshness_cache_ttl_witness :
    (getOrRefresh (okRefresh fun t => TimedResult.mk (P := Nat) t 0) 100
        (getOrRefresh (okRefresh fun t => TimedResult.mk (P := Nat) t 0) 5
          ⟨none, 0⟩).state).invoked = false ∧
    (getOrRefresh (okRefresh fun t => TimedResult.mk (P := Nat) t 0) 200000
        (getOrRefresh (okRefresh fun t => TimedResult.mk (P := Nat) t 0) 5
          ⟨none, 0⟩).state).invoked = true :=
  ⟨(freshness_cache_ttl (fun t => TimedResult.mk t 0) (fun _ => rfl) 5 100 200000
      (by decide) (by decide)).2.2.1,
   (freshness_cache_ttl (fun t => TimedResult.mk t 0) (fun _ => rfl) 5 100 200000
      (by decide) (by decide)).2.2.2.2.2.1⟩

/-- C4 (confirmed): when the cache cannot answer (no stored result, or
the stored result is older than the TTL) and the refresh function fails,
`fetchClosings` surfaces exactly that error and the cache state —
stored result and last-refresh timestamp — is unchanged. -/
theorem refresh_failure_preserves_cache {E R : Type} (refresh : Nat → Except E R)
    (now : Nat) (st : CacheState R) (e : E)
    (hfail : refresh now = Except.error e)
    (hmiss : st.cache = none ∨ CLOSINGS_TTL ≤ now - st.lastFetched) :
    (getOrRefresh refresh now st).result = Except.error e ∧
    (getOrRefresh refresh now st).state = st ∧
    (getOrRefresh refresh now st).invoked = true := by
  have hrun : runRefresh refresh now st = ⟨Except.error e, st, true⟩ := by
    unfold runRefresh
    rw [hfail]
  rcases hmiss with hnone | hexp
  · rw [show getOrRefresh refresh now st = runRefresh refresh now st by
      unfold getOrRefresh; rw [hnone], hrun]
    exact ⟨rfl, rfl, rfl⟩
  · cases hc : st.cache with
    | none =>
      rw [show getOrRefresh refresh now st = runRefresh refresh now st by
        unfold getOrRefresh; rw [hc], hrun]
      exact ⟨rfl, rfl, rfl⟩
    | some r =>
      rw [show getOrRefresh refresh now st = runRefresh refresh now st by
        unfold getOrRefresh
        rw [hc]
        dsimp only
        rw [if_neg (Nat.not_lt.mpr hexp)], hrun]
      exact ⟨rfl, rfl, rfl⟩

/-- C4 witness: a failing refresh at time 200000 over a cache populated
at time 0 leaves the stored value 7 and timestamp intact and surfaces
error 9. -/
theorem refresh_failure_preserves_cache_witness :
    (getOrRefresh (fun _ => Except.error 9) 200000 (⟨some 7, 0⟩ : CacheState Nat)).result =
      (Except.error 9 : Except Nat Nat) ∧
    (getOrRefresh (fun _ => Except.error 9) 200000 (⟨some 7, 0⟩ : CacheState Nat)).state =
      ⟨some 7, 0⟩ ∧
    (getOrRefresh (fun _ => Except.error 9) 200000 (⟨some 7, 0⟩ : CacheState Nat)).invoked =
      true :=
  refresh_failure_preserves_cache (fun _ => Except.error 9) 200000 ⟨some 7, 0⟩ 9 rfl
    (Or.inr (by decide))

/-- C6 feed row: the Polytech end-to-end scenario from the spec. -/
def polytechRow : RawRow :=
  ⟨("Polytech School District").data, ("Schools closed today due to weather").data,
   ("").data, ("2024-01-15").data⟩

/-- C6 (confirmed): running the extended server pipeline (normalize,
classify with the strict scheme, match, build the guarded lookup maps)
on the Polytech feed row yields a `byVotech` entry under key `POLYTECH`
whose record has status category `closed` and date `2024-01-15`. -/
theorem polytech_end_to_end :
    (buildMaps (matchDistrict []) matchVotech (parseRows [polytechRow])).byVotech
        (("POLYTECH").data) =
      some ⟨mkRecord polytechRow, ("POLYTECH").data⟩ ∧
    (mkRecord polytechRow).statusType = StatusCategory.closed ∧
    (mkRecord polytechRow).date = ("2024-01-15").data := by
  refine ⟨?_, ?_, ?_⟩
  · decide
  · decide
  · decide

/-- C7 (confirmed): the district matcher finds `"Appoquinimink School
District"` for a record named `"Appoquinimink"`, and every catalog
entity whose stripped core has length at most 2 is skipped, so a catalog
consisting only of such entities never yields a match. -/
theorem district_match_core_rules :
    matchDistrict [("Appoquinimink School District").data]
        ⟨("Appoquinimink").data, ("Closed").data, StatusCategory.closed,
         ("2024-01-15").data⟩ =
      some (("Appoquinimink School District").data) ∧
    (∀ (districtNames : List (List Char)) (closing : ClosureRecord),
      (∀ name ∈ districtNames, (coreOf name).length ≤ 2) →
      matchDistrict districtNames closing = none) := by
  constructor
  · decide
  · intro districtNames closing
    unfold matchDistrict
    induction districtNames with
    | nil => intro _; rfl
    | cons n rest ih =>
      intro h
      have hn : (coreOf n).length ≤ 2 := h n (List.mem_cons_self n rest)
      have hcond : decide (2 < (coreOf n).length) = false :=
        decide_eq_false (Nat.not_lt.mpr hn)
      rw [matchDistrictGo, hcond]
      simp only [Bool.false_and, Bool.false_eq_true, if_false]
      exact ih (fun m hm => h m (List.mem_cons_of_mem n hm))

/-- C7 witness: a catalog whose only entry strips to an empty core
yields no match. -/
theorem district_match_core_rules_witness :
    matchDistrict [("School District").data]
        ⟨("Some School").data, ("Closed").data, StatusCategory.closed, ("").data⟩ = none :=
  district_match_core_rules.2 [("School District").data]
    ⟨("Some School").data, ("Closed").data, StatusCategory.closed, ("").data⟩ (by decide)

/-- C8 (counterexample): the standalone script's `fetchDistricts`
catches a transport error and returns an empty `FeatureCollection`
instead of propagating the failure, contradicting the claim for the
districts catalog fetch. -/
theorem script_fetchDistricts_empty_on_error :
    fetchDistrictsScript (Except.error (("ECONNREFUSED").data)) = FeatureCollection.mk [] :=
  rfl

/-- C8 (amended): the server variants propagate a catalog transport
error for all three catalog fetchers — districts, votech and charter —
leaving the catalog cache unpopulated; the standalone script's district
fetcher instead swallows the error into an empty catalog. -/
theorem server_catalog_fetch_propagates (e : List Char) :
    fetchDistrictsServer none (Except.error e) = (Except.error e, none) ∧
    fetchVotechDistrictsServer none (Except.error e) = (Except.error e, none) ∧
    fetchCharterSchoolsServer none (Except.error e) = (Except.error e, none) ∧
    fetchDistrictsScript (Except.error e) = FeatureCollection.mk [] :=
  ⟨rfl, rfl, rfl, rfl⟩

/-- C9 (confirmed): the row-normalization loop equals filtering out the
rows whose trimmed entity label is empty and mapping the remaining rows,
in feed order, through the record constructor — dropped rows are
silent, and every kept row contributes exactly one record. -/
theorem parseRows_drops_empty_labels (rows : List RawRow) :
    parseRows rows =
      (rows.filter fun r => !(trimL r.entityLabel).isEmpty).map mkRecord := by
  induction rows with
  | nil => rfl
  | cons r rest ih =>
    cases h : (trimL r.entityLabel).isEmpty with
    | true => simp [parseRows, List.filter_cons, h, ih]
    | false => simp [parseRows, List.filter_cons, h, ih]

/-- C10 row: empty detail text but a delay keyword in the title. -/
def delayTitleRow : RawRow :=
  ⟨("Appoquinimink School District").data, ("").data, ("Two hour delay").data,
   ("2024-01-15").data⟩

/-- C10 (confirmed): for a feed row with a non-empty entity label, the
stored status text is the literal `"Closed"` whenever the trimmed detail
text is empty — even when the derived status category is `delay` because
the title carries a delay keyword — and is the trimmed detail text
verbatim whenever that is non-empty. -/
theorem status_text_default_closed :
    (∀ r : RawRow, (trimL r.entityLabel).isEmpty = false →
      (trimL r.detailText).isEmpty = true → (mkRecord r).status = ("Closed").data) ∧
    (∀ r : RawRow, (trimL r.entityLabel).isEmpty = false →
      (trimL r.detailText).isEmpty = false → (mkRecord r).status = trimL r.detailText) ∧
    (mkRecord delayTitleRow).status = ("Closed").data ∧
    (mkRecord delayTitleRow).statusType = StatusCategory.delay := by
  refine ⟨?_, ?_, ?_, ?_⟩
  · intro r _ h
    simp [mkRecord, h]
  · intro r _ h
    simp [mkRecord, h]
  · decide
  · decide

/-- C10 witness: the two universal parts applied to concrete rows. -/
theorem status_text_default_closed_witness :
    (mkRecord ⟨("Cape Henlopen").data, ("   ").data, ("").data, ("").data⟩).status =
      ("Closed").data ∧
    (mkRecord ⟨("Cape Henlopen").data, (" Two hour delay ").data, ("").data,
        ("").data⟩).status = trimL ((" Two hour delay ").data) :=
  ⟨status_text_default_closed.1 ⟨("Cape Henlopen").data, ("   ").data, ("").data, ("").data⟩
    (by decide) (by decide),
   status_text_default_closed.2.1
    ⟨("Cape Henlopen").data, (" Two hour delay ").data, ("").data, ("").data⟩
    (by decide) (by decide)⟩
